import Mathlib

/-!
Shallow embedding of the NEROSYS `Example` cog (src/cogs/example/example.py):
a guild-scoped trigger/response repository, per-guild settings, an in-memory
cooldown map, and the `on_message` handler that answers messages containing a
stored trigger.

Conventions of the embedding:
* Guild and user ids are `Nat`; timestamps are `ℚ` (Python floats carry
  fractional seconds, e.g. `4.999`).
* The SQLite `messages` table of one guild is a `MessagesTable`: a list of
  records in insertion order together with the next AUTOINCREMENT id.
  `SELECT * FROM messages` is modelled as returning the rows in rowid
  (= insertion = ascending id) order.
* Python dicts are association lists (insertion ordered), with `setdefault`
  and item assignment modelled explicitly.
* Python's `needle in haystack` on strings is `strContains haystack needle`,
  and `str.lower()` is `pyLower` (ASCII case mapping).
* The settings table (`enabled`, `cooldown`) is reached only through the
  accessors `is_enabled` / `get_guild_cooldown`; the generic dataio engine is
  not part of the repository sources, so a guild's settings are modelled as
  the already-cast values those accessors return (a `Bool` and a `Nat`, per
  the spec's Settings Accessor contract).
-/

namespace Nerosys

/-- One row of the per-guild `messages` table (CREATE TABLE in `Example.__init__`):
`id INTEGER PRIMARY KEY AUTOINCREMENT, trigger TEXT, response TEXT, author_id INTEGER`. -/
structure TriggerRecord where
  id : Nat
  trigger : String
  response : String
  authorId : Nat
  deriving DecidableEq, Repr

/-- A guild's `messages` table: rows in insertion order plus the next
AUTOINCREMENT id (SQLite starts ids at 1 and never reuses them). -/
structure MessagesTable where
  nextId : Nat
  records : List TriggerRecord
  deriving DecidableEq, Repr

/-- `Example.get_messages`: `SELECT * FROM messages`, rows in rowid order. -/
def get_messages (t : MessagesTable) : List TriggerRecord :=
  t.records

/-- `Example.add_message`: `INSERT INTO messages (trigger, response, author_id)
VALUES (?, ?, ?)`; the store assigns the next id. -/
def add_message (t : MessagesTable) (trigger response : String) (authorId : Nat) :
    MessagesTable :=
  { nextId := t.nextId + 1,
    records := t.records ++ [⟨t.nextId, trigger, response, authorId⟩] }

/-- `Example.remove_message`: `DELETE FROM messages WHERE id = ?`. -/
def remove_message (t : MessagesTable) (i : Nat) : MessagesTable :=
  { t with records := t.records.filter (fun m => m.id ≠ i) }

/-- Python's substring test `needle in haystack`, on `List Char`. -/
def subListOf (needle : List Char) : List Char → Bool
  | [] => needle.isEmpty
  | c :: rest => needle.isPrefixOf (c :: rest) || subListOf needle rest

/-- Python's substring test `needle in haystack` on strings. -/
def strContains (haystack needle : String) : Bool :=
  subListOf needle.data haystack.data

/-- Python's `str.lower()` (ASCII case mapping, which is all the triggers in
the claims need). -/
def pyLower (s : String) : String :=
  ⟨s.data.map Char.toLower⟩

/-- The two rejection reasons of `Example.trig_add`
(spec names: `DuplicateTrigger`, `LimitExceeded`). -/
inductive AddError where
  | DuplicateTrigger
  | LimitExceeded
  deriving DecidableEq, Repr

/-- `Example.trig_add` (the `/trig add` handler), state part: lower-case the
trigger, reject a duplicate, then reject a full table (`len(messages) >= 20`),
otherwise insert. An error leaves the table unchanged (the handler returns
before `add_message`). -/
def trig_add (t : MessagesTable) (trigger response : String) (authorId : Nat) :
    Except AddError MessagesTable :=
  if (get_messages t).any (fun m => m.trigger == pyLower trigger) then
    Except.error AddError.DuplicateTrigger
  else if 20 ≤ (get_messages t).length then
    Except.error AddError.LimitExceeded
  else
    Except.ok (add_message t (pyLower trigger) response authorId)

/-- Association-list lookup, first match (Python dict access). -/
def lookup? {α : Type} : List (Nat × α) → Nat → Option α
  | [], _ => none
  | (k, v) :: rest, key => if k = key then some v else lookup? rest key

/-- Python `dict.setdefault`: return the stored value, inserting the default
(at the end, dicts are insertion ordered) when the key is absent. -/
def setdefault {α : Type} (l : List (Nat × α)) (key : Nat) (d : α) :
    α × List (Nat × α) :=
  match lookup? l key with
  | some v => (v, l)
  | none => (d, l ++ [(key, d)])

/-- Python `dict[key] = v`: overwrite the first binding, append when absent. -/
def setval {α : Type} : List (Nat × α) → Nat → α → List (Nat × α)
  | [], key, v => [(key, v)]
  | (k, w) :: rest, key, v =>
    if k = key then (key, v) :: rest else (k, w) :: setval rest key v

/-- The inner dict of `Example.__cooldowns`: user id → last response timestamp. -/
abbrev UserCooldowns := List (Nat × ℚ)

/-- `Example.__cooldowns`: guild id → (user id → last response timestamp). -/
abbrev Cooldowns := List (Nat × UserCooldowns)

/-- The last-response timestamp `Example.on_message` sees for a (guild, user)
pair: an absent guild entry is an empty dict, an absent user entry is `0`
(both produced by the two `setdefault` calls in the handler). -/
def lastTS (cds : Cooldowns) (gid aid : Nat) : ℚ :=
  (lookup? ((lookup? cds gid).getD []) aid).getD 0

/-- The raw stored entry for a (guild, user) pair (`none` when never touched). -/
def rawTS (cds : Cooldowns) (gid aid : Nat) : Option ℚ :=
  (lookup? cds gid).bind (fun u => lookup? u aid)

/-- A guild's state as `Example.on_message` reads it: the two settings
(through `is_enabled` / `get_guild_cooldown`, already cast to `Bool` / `Nat`)
and the `messages` table. -/
structure GuildState where
  enabled : Bool
  cooldown : Nat
  messages : MessagesTable
  deriving DecidableEq, Repr

/-- `Example.on_message` for a message delivered in a recognized guild: the
author-bot guard, the `enabled` guard, the cooldown guard
(`last_resp + guild_cooldown > now` returns early), then the scan of
`get_messages` answering the first record whose trigger is contained in the
raw content, updating the cooldown map and breaking out of the loop.
Returns the emitted response (if any) and the new cooldown map; the dict
mutations (`setdefault` twice, then the item assignment on success) are made
explicit, the inner dict being written back into the outer one. -/
def on_message (gid : Nat) (g : GuildState) (cds : Cooldowns) (authorId : Nat)
    (authorBot : Bool) (content : String) (now : ℚ) :
    Option String × Cooldowns :=
  if authorBot then (none, cds)
  else if !g.enabled then (none, cds)
  else
    let sd1 := setdefault cds gid []
    let sd2 := setdefault sd1.1 authorId 0
    let cds2 := setval sd1.2 gid sd2.2
    if sd2.1 + (g.cooldown : ℚ) > now then (none, cds2)
    else
      match (get_messages g.messages).find? (fun m => strContains content m.trigger) with
      | some m => (some m.response, setval cds2 gid (setval sd2.2 authorId now))
      | none => (none, cds2)

/-- The cooldown map after the two `setdefault` calls of the handler
(no response emitted yet). -/
def touch (cds : Cooldowns) (gid aid : Nat) : Cooldowns :=
  setval (setdefault cds gid []).2 gid (setdefault (setdefault cds gid []).1 aid 0).2

/-- The cooldown map after a successful emission: the two `setdefault` calls
followed by `cds[author.id] = now` on the inner dict. -/
def emitState (cds : Cooldowns) (gid aid : Nat) (now : ℚ) : Cooldowns :=
  setval (touch cds gid aid) gid
    (setval (setdefault (setdefault cds gid []).1 aid 0).2 aid now)

section AssocLemmas

variable {α : Type}

theorem lookup?_append (l l2 : List (Nat × α)) (key : Nat) :
    lookup? (l ++ l2) key = ((lookup? l key).orElse fun _ => lookup? l2 key) := by
  induction l with
  | nil => simp [lookup?]
  | cons hd tl ih =>
    obtain ⟨k, v⟩ := hd
    by_cases hk : k = key <;> simp [lookup?, hk, ih]

theorem setdefault_fst (l : List (Nat × α)) (key : Nat) (d : α) :
    (setdefault l key d).1 = (lookup? l key).getD d := by
  unfold setdefault
  cases h : lookup? l key <;> simp

theorem lookup?_setdefault_self (l : List (Nat × α)) (key : Nat) (d : α) :
    lookup? (setdefault l key d).2 key = some ((lookup? l key).getD d) := by
  unfold setdefault
  cases h : lookup? l key with
  | some v => simp [h]
  | none => simp [lookup?_append, h, lookup?]

theorem lookup?_setdefault_ne (l : List (Nat × α)) (key key2 : Nat) (d : α)
    (h : key2 ≠ key) :
    lookup? (setdefault l key d).2 key2 = lookup? l key2 := by
  unfold setdefault
  cases hx : lookup? l key with
  | some v => simp
  | none =>
    rw [lookup?_append]
    cases hy : lookup? l key2 with
    | some w => simp
    | none => simp [lookup?, Ne.symm h]

theorem lookup?_setval_self (l : List (Nat × α)) (key : Nat) (v : α) :
    lookup? (setval l key v) key = some v := by
  induction l with
  | nil => simp [setval, lookup?]
  | cons hd tl ih =>
    obtain ⟨k, w⟩ := hd
    by_cases hk : k = key <;> simp [setval, lookup?, hk, ih]

theorem lookup?_setval_ne (l : List (Nat × α)) (key key2 : Nat) (v : α)
    (h : key2 ≠ key) :
    lookup? (setval l key v) key2 = lookup? l key2 := by
  induction l with
  | nil => simp [setval, lookup?, Ne.symm h]
  | cons hd tl ih =>
    obtain ⟨k, w⟩ := hd
    by_cases hk : k = key
    · subst hk
      simp [setval, lookup?, Ne.symm h]
    · simp [setval, lookup?, hk, ih]

end AssocLemmas

theorem setdefault_setdefault_fst (cds : Cooldowns) (gid aid : Nat) :
    (setdefault (setdefault cds gid []).1 aid 0).1 = lastTS cds gid aid := by
  rw [setdefault_fst, setdefault_fst]
  rfl

theorem lastTS_touch (cds : Cooldowns) (gid aid gid2 aid2 : Nat) :
    lastTS (touch cds gid aid) gid2 aid2 = lastTS cds gid2 aid2 := by
  unfold lastTS touch
  by_cases hg : gid2 = gid
  · subst hg
    rw [lookup?_setval_self]
    by_cases ha : aid2 = aid
    · subst ha
      rw [Option.getD_some, lookup?_setdefault_self, setdefault_fst]
      simp
    · rw [Option.getD_some, lookup?_setdefault_ne _ _ _ _ ha, setdefault_fst]
  · rw [lookup?_setval_ne _ _ _ _ hg, lookup?_setdefault_ne _ _ _ _ hg]

theorem lastTS_emitState_self (cds : Cooldowns) (gid aid : Nat) (now : ℚ) :
    lastTS (emitState cds gid aid now) gid aid = now := by
  unfold lastTS emitState
  rw [lookup?_setval_self, Option.getD_some, lookup?_setval_self, Option.getD_some]

theorem lastTS_emitState_ne (cds : Cooldowns) (gid aid gid2 aid2 : Nat) (now : ℚ)
    (h : ¬(gid2 = gid ∧ aid2 = aid)) :
    lastTS (emitState cds gid aid now) gid2 aid2 = lastTS cds gid2 aid2 := by
  by_cases hg : gid2 = gid
  · subst hg
    have ha : aid2 ≠ aid := fun haa => h ⟨rfl, haa⟩
    unfold lastTS emitState
    rw [lookup?_setval_self, Option.getD_some, lookup?_setval_ne _ _ _ _ ha,
      lookup?_setdefault_ne _ _ _ _ ha, setdefault_fst]
  · have : lastTS (emitState cds gid aid now) gid2 aid2 =
        lastTS (touch cds gid aid) gid2 aid2 := by
      unfold lastTS emitState
      rw [lookup?_setval_ne _ _ _ _ hg]
    rw [this, lastTS_touch]

/-- The handler for a non-bot author in an enabled guild, written as one
top-level case split on the cooldown guard and the scan result. -/
theorem on_message_unfold (gid : Nat) (g : GuildState) (cds : Cooldowns)
    (aid : Nat) (content : String) (now : ℚ) (hen : g.enabled = true) :
    on_message gid g cds aid false content now =
      if now < lastTS cds gid aid + (g.cooldown : ℚ) then (none, touch cds gid aid)
      else
        match (get_messages g.messages).find? (fun m => strContains content m.trigger) with
        | some m => (some m.response, emitState cds gid aid now)
        | none => (none, touch cds gid aid) := by
  unfold on_message
  rw [hen]
  simp only [Bool.false_eq_true, if_false, Bool.not_true, Bool.true_eq_false]
  rw [setdefault_setdefault_fst]
  rfl

theorem on_message_bot (gid : Nat) (g : GuildState) (cds : Cooldowns)
    (aid : Nat) (content : String) (now : ℚ) :
    on_message gid g cds aid true content now = (none, cds) := by
  unfold on_message
  simp

theorem on_message_disabled (gid : Nat) (g : GuildState) (cds : Cooldowns)
    (aid : Nat) (content : String) (now : ℚ) (hen : g.enabled = false) :
    on_message gid g cds aid false content now = (none, cds) := by
  unfold on_message
  rw [hen]
  simp

theorem on_message_blocked (gid : Nat) (g : GuildState) (cds : Cooldowns)
    (aid : Nat) (content : String) (now : ℚ) (hen : g.enabled = true)
    (hcd : now < lastTS cds gid aid + (g.cooldown : ℚ)) :
    on_message gid g cds aid false content now = (none, touch cds gid aid) := by
  rw [on_message_unfold _ _ _ _ _ _ hen, if_pos hcd]

theorem on_message_found (gid : Nat) (g : GuildState) (cds : Cooldowns)
    (aid : Nat) (content : String) (now : ℚ) (m : TriggerRecord)
    (hen : g.enabled = true)
    (helig : lastTS cds gid aid + (g.cooldown : ℚ) ≤ now)
    (hfind : (get_messages g.messages).find? (fun x => strContains content x.trigger) =
      some m) :
    on_message gid g cds aid false content now =
      (some m.response, emitState cds gid aid now) := by
  rw [on_message_unfold _ _ _ _ _ _ hen, if_neg (not_lt.mpr helig), hfind]

theorem on_message_nomatch (gid : Nat) (g : GuildState) (cds : Cooldowns)
    (aid : Nat) (content : String) (now : ℚ)
    (hen : g.enabled = true)
    (helig : lastTS cds gid aid + (g.cooldown : ℚ) ≤ now)
    (hfind : (get_messages g.messages).find? (fun x => strContains content x.trigger) =
      none) :
    on_message gid g cds aid false content now = (none, touch cds gid aid) := by
  rw [on_message_unfold _ _ _ _ _ _ hen, if_neg (not_lt.mpr helig), hfind]

/-- What a successful `trig_add` tells us: the insert really happened, the
table was below the cap, and no live record already held the (lower-cased)
trigger. -/
theorem trig_add_ok {t : MessagesTable} {tr r : String} {a : Nat} {t2 : MessagesTable}
    (h : trig_add t tr r a = Except.ok t2) :
    t2 = add_message t (pyLower tr) r a ∧ t.records.length < 20 ∧
      ∀ m ∈ t.records, m.trigger ≠ pyLower tr := by
  unfold trig_add at h
  by_cases h1 : (get_messages t).any (fun m => m.trigger == pyLower tr)
  · rw [if_pos h1] at h
    cases h
  · rw [if_neg h1] at h
    by_cases h2 : 20 ≤ (get_messages t).length
    · rw [if_pos h2] at h
      cases h
    · rw [if_neg h2] at h
      simp only [get_messages] at h2
      refine ⟨(Except.ok.injEq _ _ |>.mp h).symm, by omega, ?_⟩
      intro m hm heq
      exact h1 (List.any_eq_true.mpr ⟨m, hm, by simp [heq]⟩)

/-- A duplicate (post-lower-casing) trigger is rejected, whatever the table
size: the duplicate check runs before the 20-record limit check. -/
theorem trig_add_duplicate {t : MessagesTable} {tr : String} (r : String) (a : Nat)
    {m : TriggerRecord} (hm : m ∈ get_messages t) (heq : m.trigger = pyLower tr) :
    trig_add t tr r a = Except.error AddError.DuplicateTrigger := by
  unfold trig_add
  have hany : (get_messages t).any (fun x => x.trigger == pyLower tr) = true :=
    List.any_eq_true.mpr ⟨m, hm, by simp [heq]⟩
  rw [hany]
  rfl

/-- A non-duplicate trigger offered to a full table is rejected with
`LimitExceeded`. -/
theorem trig_add_full {t : MessagesTable} {tr : String} (r : String) (a : Nat)
    (hfull : 20 ≤ t.records.length)
    (hnodup : ∀ m ∈ t.records, m.trigger ≠ pyLower tr) :
    trig_add t tr r a = Except.error AddError.LimitExceeded := by
  unfold trig_add
  have hany : (get_messages t).any (fun x => x.trigger == pyLower tr) = false := by
    rw [← Bool.not_eq_true, List.any_eq_true]
    rintro ⟨m, hm, hbeq⟩
    exact hnodup m hm (by simpa using hbeq)
  rw [hany]
  simp [get_messages, hfull]

/-- The message-table states reachable through the repository's own
operations, starting from the freshly created empty table. -/
inductive Reachable : MessagesTable → Prop where
  | empty : Reachable ⟨1, []⟩
  | add {t : MessagesTable} {tr r : String} {a : Nat} {t2 : MessagesTable} :
      Reachable t → trig_add t tr r a = Except.ok t2 → Reachable t2
  | remove {t : MessagesTable} (i : Nat) : Reachable t → Reachable (remove_message t i)

/-- Cap invariant: every reachable table holds at most 20 records. -/
theorem reachable_length {t : MessagesTable} (h : Reachable t) :
    t.records.length ≤ 20 := by
  induction h with
  | empty => simp
  | add hR hok ih =>
    obtain ⟨rfl, hlen, -⟩ := trig_add_ok hok
    simp only [add_message, List.length_append, List.length_cons, List.length_nil]
    omega
  | remove i hR ih =>
    exact le_trans (List.length_filter_le _ _) ih

/-- Distinct all-letter triggers used to build a concrete full table. -/
def mkTrig (i : Nat) : String :=
  ⟨List.replicate (i + 1) 'a'⟩

/-- The table after `n` successful adds of `mkTrig 0, …, mkTrig (n-1)`. -/
def tblN (n : Nat) : MessagesTable :=
  ⟨n + 1, (List.range n).map (fun i => ⟨i + 1, mkTrig i, "r", 7⟩)⟩

theorem pyLower_mkTrig (n : Nat) : pyLower (mkTrig n) = mkTrig n := by
  have : Char.toLower 'a' = 'a' := by decide
  simp [pyLower, mkTrig, List.map_replicate, this]

theorem mkTrig_inj {i j : Nat} (h : mkTrig i = mkTrig j) : i = j := by
  have := congrArg (fun s : String => s.data.length) h
  simpa [mkTrig] using this

theorem trig_add_tblN (n : Nat) (hn : n < 20) :
    trig_add (tblN n) (mkTrig n) "r" 7 = Except.ok (tblN (n + 1)) := by
  unfold trig_add
  rw [pyLower_mkTrig]
  have hany : (get_messages (tblN n)).any (fun m => m.trigger == mkTrig n) = false := by
    rw [← Bool.not_eq_true, List.any_eq_true]
    rintro ⟨m, hm, hbeq⟩
    simp only [get_messages, tblN, List.mem_map, List.mem_range] at hm
    obtain ⟨i, hi, rfl⟩ := hm
    have heq : mkTrig i = mkTrig n := by simpa using hbeq
    have := mkTrig_inj heq
    omega
  rw [hany]
  have hlen : ¬ (20 ≤ (get_messages (tblN n)).length) := by
    simp only [get_messages, tblN, List.length_map, List.length_range]
    omega
  simp only [Bool.false_eq_true, if_false, if_neg hlen]
  congr 1
  unfold add_message tblN
  simp [List.range_succ]

theorem reachable_tblN : ∀ n, n ≤ 20 → Reachable (tblN n) := by
  intro n
  induction n with
  | zero =>
    intro _
    have h0 : tblN 0 = ⟨1, []⟩ := by simp [tblN]
    rw [h0]
    exact Reachable.empty
  | succ k ih =>
    intro hk
    exact Reachable.add (ih (by omega)) (trig_add_tblN k (by omega))

/-- In a list sorted by strictly ascending id, `find?` returns the matching
record of smallest id. -/
theorem find?_first_sorted (l : List TriggerRecord) (p : TriggerRecord → Bool)
    (hsort : l.Pairwise (fun x y => x.id < y.id)) (m : TriggerRecord) (hm : m ∈ l)
    (hp : p m = true) (hfirst : ∀ m2 ∈ l, m2.id < m.id → p m2 = false) :
    l.find? p = some m := by
  induction l with
  | nil => cases hm
  | cons x rest ih =>
    rw [List.pairwise_cons] at hsort
    rcases List.mem_cons.mp hm with rfl | hmr
    · exact List.find?_cons_of_pos _ hp
    · have hx : x.id < m.id := hsort.1 m hmr
      have hpx : p x = false := hfirst x (List.mem_cons_self x rest) hx
      rw [List.find?_cons_of_neg _ (by simp [hpx])]
      exact ih hsort.2 hmr (fun m2 h2 hlt => hfirst m2 (List.mem_cons_of_mem _ h2) hlt)

/-- The empty string is a substring of every string (Python's `"" in s`). -/
theorem strContains_empty (s : String) : strContains s "" = true := by
  unfold strContains
  show subListOf [] s.data = true
  induction s.data with
  | nil => rfl
  | cons c rest ih => simp [subListOf, List.isPrefixOf]

/-- Deleting by an id that exactly one record holds shrinks the table by one. -/
theorem filter_length_of_mem_unique (l : List TriggerRecord) (i : Nat)
    (hnd : l.Pairwise (fun x y => x.id ≠ y.id)) (m0 : TriggerRecord)
    (hm0 : m0 ∈ l) (hid : m0.id = i) :
    (l.filter (fun m => m.id ≠ i)).length + 1 = l.length := by
  induction l with
  | nil => cases hm0
  | cons x rest ih =>
    rw [List.pairwise_cons] at hnd
    rcases List.mem_cons.mp hm0 with rfl | hmr
    · have hall : ∀ a ∈ rest, a.id ≠ i := fun a ha hai =>
        hnd.1 a ha (hid.trans hai.symm)
      have hrest : rest.filter (fun m => m.id ≠ i) = rest :=
        List.filter_eq_self.mpr (fun a ha => by simpa using hall a ha)
      rw [List.filter_cons, if_neg (by simp [hid]), hrest, List.length_cons]
    · have hxid : x.id ≠ i := by
        rw [← hid]
        exact hnd.1 m0 hmr
      have hlen := ih hnd.2 hmr
      rw [List.filter_cons, if_pos (by simpa using hxid)]
      simp only [List.length_cons]
      omega

/-- A pair never touched reads as timestamp `0`. -/
theorem lastTS_of_rawTS_none {cds : Cooldowns} {gid aid : Nat}
    (h : rawTS cds gid aid = none) : lastTS cds gid aid = 0 := by
  unfold rawTS at h
  unfold lastTS
  cases hg : lookup? cds gid with
  | none => rfl
  | some u =>
    rw [hg] at h
    cases hu : lookup? u aid with
    | some v => simp [hu] at h
    | none => simp [hu]

/-- The store failure of the spec's error taxonomy (`StoreUnavailable`). -/
inductive StoreErr where
  | unavailable
  deriving DecidableEq, Repr

/-- The three Record Store reads `Example.on_message` performs, each able to
fail. Modelled from the spec: the dataio persistence engine is not part of
the repository sources; per spec §6/§7 every store operation may fail with
`StoreUnavailable`. -/
structure FallibleStore where
  enabled : Except StoreErr Bool
  cooldown : Except StoreErr Nat
  messages : Except StoreErr MessagesTable

/-- `Example.on_message` with the store reads made fallible. The handler body
has no exception handling (no try/except in the source), so each failing read
propagates out of the handler, exactly where the Python exception would
escape the function. -/
def on_messageE (gid : Nat) (st : FallibleStore) (cds : Cooldowns) (authorId : Nat)
    (authorBot : Bool) (content : String) (now : ℚ) :
    Except StoreErr (Option String × Cooldowns) :=
  if authorBot then Except.ok (none, cds)
  else
    match st.enabled with
    | Except.error e => Except.error e
    | Except.ok en =>
      if !en then Except.ok (none, cds)
      else
        match st.cooldown with
        | Except.error e => Except.error e
        | Except.ok gcd =>
          let sd1 := setdefault cds gid []
          let sd2 := setdefault sd1.1 authorId 0
          let cds2 := setval sd1.2 gid sd2.2
          if sd2.1 + (gcd : ℚ) > now then Except.ok (none, cds2)
          else
            match st.messages with
            | Except.error e => Except.error e
            | Except.ok tbl =>
              match (get_messages tbl).find? (fun m => strContains content m.trigger) with
              | some m => Except.ok (some m.response, setval cds2 gid (setval sd2.2 authorId now))
              | none => Except.ok (none, cds2)

/-- Coherence: with all three reads succeeding, the fallible handler is the
plain handler. -/
theorem on_messageE_ok_store (gid : Nat) (en : Bool) (cd : Nat)
    (tbl : MessagesTable) (cds : Cooldowns) (aid : Nat) (b : Bool)
    (content : String) (now : ℚ) :
    on_messageE gid ⟨Except.ok en, Except.ok cd, Except.ok tbl⟩ cds aid b content now =
      Except.ok (on_message gid ⟨en, cd, tbl⟩ cds aid b content now) := by
  unfold on_messageE on_message
  cases b
  · cases en
    · simp
    · simp only [Bool.false_eq_true, if_false, Bool.not_true, Bool.true_eq_false]
      by_cases hcd :
          (setdefault (setdefault cds gid []).1 aid 0).1 + (cd : ℚ) > now
      · simp [hcd]
      · simp only [hcd, if_false]
        cases hf : (get_messages tbl).find? (fun m => strContains content m.trigger) <;>
          simp [hf]
  · simp

/-- A failing `get_messages` read in an otherwise enabled, eligible handler
run propagates out of the handler. -/
theorem on_messageE_messages_fail (gid aid : Nat) (st : FallibleStore)
    (cds : Cooldowns) (content : String) (now : ℚ) (c : Nat)
    (hen : st.enabled = Except.ok true) (hcd : st.cooldown = Except.ok c)
    (hmsg : st.messages = Except.error StoreErr.unavailable)
    (helig : lastTS cds gid aid + (c : ℚ) ≤ now) :
    on_messageE gid st cds aid false content now =
      Except.error StoreErr.unavailable := by
  unfold on_messageE
  rw [hen, hcd, hmsg]
  have hguard :
      ¬ ((setdefault (setdefault cds gid []).1 aid 0).1 + (c : ℚ) > now) := by
    rw [setdefault_setdefault_fst]
    exact not_lt.mpr helig
  simp [hguard]

/-- C1: in an enabled guild, for a non-bot author whose cooldown has elapsed,
`on_message` emits the response of the first record (in ascending id order,
which is the scan order of the id-sorted table) whose trigger is contained in
the raw content, and records `now` as the author's cooldown timestamp. The
handler emits at most one response per message by construction (its output is
an `Option`, produced by `find?` and the loop `break`). -/
theorem C1_first_match_emits (gid aid : Nat) (g : GuildState) (cds : Cooldowns)
    (content : String) (now : ℚ)
    (hen : g.enabled = true)
    (helig : lastTS cds gid aid + (g.cooldown : ℚ) ≤ now)
    (hsort : (get_messages g.messages).Pairwise (fun x y => x.id < y.id))
    (m : TriggerRecord) (hm : m ∈ get_messages g.messages)
    (hmatch : strContains content m.trigger = true)
    (hfirst : ∀ m2 ∈ get_messages g.messages, m2.id < m.id →
      strContains content m2.trigger = false) :
    (on_message gid g cds aid false content now).1 = some m.response ∧
      lastTS (on_message gid g cds aid false content now).2 gid aid = now := by
  have hfind := find?_first_sorted _ _ hsort m hm hmatch hfirst
  rw [on_message_found gid g cds aid content now m hen helig hfind]
  exact ⟨rfl, lastTS_emitState_self cds gid aid now⟩

/-- Witness for C1: two matching records; the smaller id wins and the
cooldown timestamp is recorded. -/
theorem C1_witness :
    (on_message 1 ⟨true, 5, ⟨3, [⟨1, "gm", "first", 5⟩, ⟨2, "g", "second", 6⟩]⟩⟩
        [] 7 false "gm" 100).1 = some "first" ∧
      lastTS (on_message 1 ⟨true, 5, ⟨3, [⟨1, "gm", "first", 5⟩, ⟨2, "g", "second", 6⟩]⟩⟩
        [] 7 false "gm" 100).2 1 7 = 100 :=
  C1_first_match_emits 1 7 ⟨true, 5, ⟨3, [⟨1, "gm", "first", 5⟩, ⟨2, "g", "second", 6⟩]⟩⟩
    [] "gm" 100 rfl (by norm_num [lastTS, lookup?]) (by decide)
    ⟨1, "gm", "first", 5⟩ (by decide) (by decide) (by decide)

/-- C2: a response is emitted only when `now - lastTimestamp ≥ cooldownSeconds`
(the code guard is `last_resp + guild_cooldown > now → return`), and at the
spec's boundary with `cooldownSeconds = 5` and last response at `t = 0`, the
user is ineligible at `t = 4.999` and eligible at `t = 5.0`. -/
theorem C2_threshold (gid aid : Nat) (g : GuildState) (cds : Cooldowns)
    (content : String) (now : ℚ) (r : String)
    (hout : (on_message gid g cds aid false content now).1 = some r) :
    (g.cooldown : ℚ) ≤ now - lastTS cds gid aid ∧
      (on_message 1 ⟨true, 5, ⟨2, [⟨1, "gm", "good morning", 42⟩]⟩⟩
        [(1, [(7, 0)])] 7 false "gm" (4999/1000)).1 = none ∧
      (on_message 1 ⟨true, 5, ⟨2, [⟨1, "gm", "good morning", 42⟩]⟩⟩
        [(1, [(7, 0)])] 7 false "gm" 5).1 = some "good morning" := by
  refine ⟨?_, ?_, ?_⟩
  · by_cases hen : g.enabled = true
    · by_cases hcd : now < lastTS cds gid aid + (g.cooldown : ℚ)
      · rw [on_message_blocked gid g cds aid content now hen hcd] at hout
        cases hout
      · rw [not_lt] at hcd
        linarith
    · rw [on_message_disabled gid g cds aid content now (by simpa using hen)] at hout
      cases hout
  · rw [on_message_blocked 1 ⟨true, 5, ⟨2, [⟨1, "gm", "good morning", 42⟩]⟩⟩
      [(1, [(7, 0)])] 7 "gm" (4999/1000) rfl (by norm_num [lastTS, lookup?])]
  · rw [on_message_found 1 ⟨true, 5, ⟨2, [⟨1, "gm", "good morning", 42⟩]⟩⟩
      [(1, [(7, 0)])] 7 "gm" 5 ⟨1, "gm", "good morning", 42⟩ rfl
      (by norm_num [lastTS, lookup?]) rfl]

/-- Witness for C2: a concrete emission, so the threshold inequality holds
there. -/
theorem C2_witness :
    ((⟨true, 5, ⟨2, [⟨1, "gm", "good morning", 42⟩]⟩⟩ : GuildState).cooldown : ℚ) ≤
      100 - lastTS [] 1 7 := by
  have hout : (on_message 1 ⟨true, 5, ⟨2, [⟨1, "gm", "good morning", 42⟩]⟩⟩
      [] 7 false "gm" 100).1 = some "good morning" := by
    rw [on_message_found 1 ⟨true, 5, ⟨2, [⟨1, "gm", "good morning", 42⟩]⟩⟩
      [] 7 "gm" 100 ⟨1, "gm", "good morning", 42⟩ rfl (by norm_num [lastTS, lookup?]) rfl]
  exact (C2_threshold 1 7 ⟨true, 5, ⟨2, [⟨1, "gm", "good morning", 42⟩]⟩⟩
    [] "gm" 100 "good morning" hout).1

/-- C3 counterexample: a full (20-record) table rejects a duplicate trigger
with `DuplicateTrigger`, not `LimitExceeded`, because the duplicate check
runs first — so "every further add call fails with LimitExceeded" is false. -/
theorem C3_counterexample :
    (tblN 20).records.length = 20 ∧
      trig_add (tblN 20) (mkTrig 0) "x" 9 = Except.error AddError.DuplicateTrigger ∧
      trig_add (tblN 20) (mkTrig 0) "x" 9 ≠ Except.error AddError.LimitExceeded := by
  have hdup : trig_add (tblN 20) (mkTrig 0) "x" 9 =
      Except.error AddError.DuplicateTrigger := by
    refine trig_add_duplicate "x" 9 (m := ⟨1, mkTrig 0, "r", 7⟩) (by decide) ?_
    rw [pyLower_mkTrig]
  refine ⟨by decide, hdup, fun hcon => ?_⟩
  rw [hdup] at hcon
  simp at hcon

/-- C3 as amended: every reachable table holds at most 20 records, and once a
table holds 20 records every further add fails — with `LimitExceeded` when
the (lower-cased) trigger is not already present (a duplicate fails with
`DuplicateTrigger` instead); an error leaves the table unchanged by
construction. -/
theorem C3_amended (t : MessagesTable) (hR : Reachable t) (tr r : String) (a : Nat) :
    t.records.length ≤ 20 ∧
      (t.records.length = 20 →
        (∀ t2, trig_add t tr r a ≠ Except.ok t2) ∧
        ((∀ m ∈ t.records, m.trigger ≠ pyLower tr) →
          trig_add t tr r a = Except.error AddError.LimitExceeded)) := by
  refine ⟨reachable_length hR, fun h20 => ⟨?_, ?_⟩⟩
  · intro t2 hok
    obtain ⟨-, hlen, -⟩ := trig_add_ok hok
    omega
  · intro hnodup
    exact trig_add_full r a (by omega) hnodup

/-- Witness for C3 (amended): a reachable 20-record table rejects a fresh
trigger with `LimitExceeded`. -/
theorem C3_witness :
    (tblN 20).records.length ≤ 20 ∧
      trig_add (tblN 20) "zz" "x" 9 = Except.error AddError.LimitExceeded := by
  have h := C3_amended (tblN 20) (reachable_tblN 20 le_rfl) "zz" "x" 9
  exact ⟨h.1, (h.2 (by decide)).2 (by decide)⟩

/-- C4: `trig_add` lower-cases the new trigger before the duplicate
comparison, so a record whose stored trigger equals the lower-cased input
makes the call fail with `DuplicateTrigger` whatever the table size (the
duplicate check runs before the 20-record limit check), and nothing is
inserted (the handler returns before `add_message`); concretely, adding
"hi" and then "Hi" fails the second call. -/
theorem C4_duplicate_case_insensitive (t : MessagesTable) (tr r : String) (a : Nat)
    (m : TriggerRecord) (hm : m ∈ get_messages t) (heq : m.trigger = pyLower tr) :
    trig_add t tr r a = Except.error AddError.DuplicateTrigger ∧
      trig_add ⟨1, []⟩ "hi" "r1" 5 = Except.ok ⟨2, [⟨1, "hi", "r1", 5⟩]⟩ ∧
      trig_add ⟨2, [⟨1, "hi", "r1", 5⟩]⟩ "Hi" "r2" 6 =
        Except.error AddError.DuplicateTrigger :=
  ⟨trig_add_duplicate r a hm heq, rfl, rfl⟩

/-- Witness for C4 at a concrete duplicate. -/
theorem C4_witness :
    trig_add ⟨2, [⟨1, "hello", "r", 5⟩]⟩ "HELLO" "r2" 6 =
      Except.error AddError.DuplicateTrigger :=
  (C4_duplicate_case_insensitive ⟨2, [⟨1, "hello", "r", 5⟩]⟩ "HELLO" "r2" 6
    ⟨1, "hello", "r", 5⟩ (by decide) (by decide)).1

/-- C5 counterexample: after adding "Hello" (stored lower-cased as "hello"),
a message whose content contains the exact-case string "Hello" — and not the
lower-cased "hello" — gets NO response, because the scan checks containment
of the stored lower-cased trigger in the raw content. -/
theorem C5_counterexample :
    strContains "Hello" "Hello" = true ∧
      trig_add ⟨1, []⟩ "Hello" "resp" 5 = Except.ok ⟨2, [⟨1, "hello", "resp", 5⟩]⟩ ∧
      (on_message 1 ⟨true, 5, ⟨2, [⟨1, "hello", "resp", 5⟩]⟩⟩ [] 7 false
        "Hello" 100).1 = none := by
  refine ⟨by decide, rfl, ?_⟩
  rw [on_message_nomatch 1 ⟨true, 5, ⟨2, [⟨1, "hello", "resp", 5⟩]⟩⟩ [] 7
    "Hello" 100 rfl (by norm_num [lastTS, lookup?]) rfl]

/-- C5 as amended: with the single stored record "hello", an enabled guild
and an eligible author, `on_message` emits the response exactly when the raw
content contains the lower-cased stored trigger "hello"; a content containing
only the exact-case "Hello" therefore does not match. -/
theorem C5_amended (gid aid i a nid : Nat) (resp content : String)
    (cds : Cooldowns) (now : ℚ)
    (helig : lastTS cds gid aid + ((5 : Nat) : ℚ) ≤ now) :
    (on_message gid ⟨true, 5, ⟨nid, [⟨i, "hello", resp, a⟩]⟩⟩ cds aid false
        content now).1 =
      if strContains content "hello" then some resp else none := by
  by_cases hc : strContains content "hello" = true
  · have hfind : (get_messages (⟨nid, [⟨i, "hello", resp, a⟩]⟩ : MessagesTable)).find?
        (fun x => strContains content x.trigger) = some ⟨i, "hello", resp, a⟩ :=
      List.find?_cons_of_pos _ hc
    rw [on_message_found gid ⟨true, 5, ⟨nid, [⟨i, "hello", resp, a⟩]⟩⟩ cds aid
      content now ⟨i, "hello", resp, a⟩ rfl helig hfind, if_pos hc]
  · have hfind : (get_messages (⟨nid, [⟨i, "hello", resp, a⟩]⟩ : MessagesTable)).find?
        (fun x => strContains content x.trigger) = none := by
      simp only [get_messages]
      rw [List.find?_cons_of_neg _ (by simpa using hc)]
      rfl
    rw [on_message_nomatch gid ⟨true, 5, ⟨nid, [⟨i, "hello", resp, a⟩]⟩⟩ cds aid
      content now rfl helig hfind, if_neg hc]

/-- Witness for C5 (amended): a content containing the lower-cased "hello"
does get the response. -/
theorem C5_witness :
    (on_message 1 ⟨true, 5, ⟨2, [⟨1, "hello", "resp", 5⟩]⟩⟩ [] 7 false
      "say hello" 10).1 = some "resp" :=
  (C5_amended 1 7 1 5 2 "resp" "say hello" [] 10
    (by norm_num [lastTS, lookup?])).trans (by decide)

/-- C6 counterexample: a (guild, user) pair with no prior entry is NOT
eligible for every `now` and cooldown: with cooldown 5 and `now = 3`, the
guard `0 + 5 > 3` blocks the response even though a trigger matches. -/
theorem C6_counterexample :
    rawTS [] 1 7 = none ∧
      strContains "gm" "gm" = true ∧
      (on_message 1 ⟨true, 5, ⟨2, [⟨1, "gm", "resp", 5⟩]⟩⟩ [] 7 false "gm" 3).1 =
        none := by
  refine ⟨rfl, by decide, ?_⟩
  rw [on_message_blocked 1 ⟨true, 5, ⟨2, [⟨1, "gm", "resp", 5⟩]⟩⟩ [] 7 "gm" 3 rfl
    (by norm_num [lastTS, lookup?])]

/-- C6 as amended: an absent entry is treated as last timestamp `0`, so a
first-contact author is eligible exactly when `now ≥ cooldownSeconds` (which
holds for every realistic wall-clock `now`), and ineligible when
`now < cooldownSeconds`. -/
theorem C6_amended (gid aid : Nat) (g : GuildState) (cds : Cooldowns)
    (content : String) (now : ℚ)
    (hen : g.enabled = true) (habs : rawTS cds gid aid = none) :
    ((g.cooldown : ℚ) ≤ now →
      (on_message gid g cds aid false content now).1 =
        ((get_messages g.messages).find? (fun m => strContains content m.trigger)).map
          (fun m => m.response)) ∧
    (now < (g.cooldown : ℚ) →
      (on_message gid g cds aid false content now).1 = none) := by
  have h0 := lastTS_of_rawTS_none habs
  constructor
  · intro hle
    have helig : lastTS cds gid aid + (g.cooldown : ℚ) ≤ now := by
      rw [h0]
      linarith
    cases hf : (get_messages g.messages).find? (fun m => strContains content m.trigger) with
    | some m =>
      rw [on_message_found gid g cds aid content now m hen helig hf]
      rfl
    | none =>
      rw [on_message_nomatch gid g cds aid content now hen helig hf]
      rfl
  · intro hlt
    rw [on_message_blocked gid g cds aid content now hen (by rw [h0]; linarith)]

/-- Witness for C6 (amended): never-seen user, cooldown 5, `now = 6`:
the matching trigger answers. -/
theorem C6_witness :
    (on_message 1 ⟨true, 5, ⟨2, [⟨1, "gm", "resp", 5⟩]⟩⟩ [] 7 false "gm" 6).1 =
      some "resp" :=
  (((C6_amended 1 7 ⟨true, 5, ⟨2, [⟨1, "gm", "resp", 5⟩]⟩⟩ [] "gm" 6 rfl rfl).1
    (by norm_num))).trans (by decide)

/-- C7: when no stored trigger is contained in the content, `on_message`
emits nothing and the last-response timestamp of every (guild, user) pair
reads the same after the call as before it (the `setdefault` calls only
materialize the implicit zero entries). -/
theorem C7_no_match_no_effect (gid aid : Nat) (g : GuildState) (cds : Cooldowns)
    (b : Bool) (content : String) (now : ℚ)
    (hno : ∀ m ∈ get_messages g.messages, strContains content m.trigger = false) :
    (on_message gid g cds aid b content now).1 = none ∧
      ∀ gid2 aid2, lastTS (on_message gid g cds aid b content now).2 gid2 aid2 =
        lastTS cds gid2 aid2 := by
  have hfind : (get_messages g.messages).find?
      (fun m => strContains content m.trigger) = none :=
    List.find?_eq_none.mpr (fun x hx => by simp [hno x hx])
  cases b with
  | true =>
    rw [on_message_bot]
    exact ⟨rfl, fun _ _ => rfl⟩
  | false =>
    cases hen : g.enabled with
    | false =>
      rw [on_message_disabled gid g cds aid content now hen]
      exact ⟨rfl, fun _ _ => rfl⟩
    | true =>
      by_cases hcd : now < lastTS cds gid aid + (g.cooldown : ℚ)
      · rw [on_message_blocked gid g cds aid content now hen hcd]
        exact ⟨rfl, fun g2 a2 => lastTS_touch cds gid aid g2 a2⟩
      · rw [on_message_nomatch gid g cds aid content now hen (not_lt.mp hcd) hfind]
        exact ⟨rfl, fun g2 a2 => lastTS_touch cds gid aid g2 a2⟩

/-- Witness for C7: a non-matching message leaves the recorded timestamp `2`
of the author in place and answers nothing. -/
theorem C7_witness :
    (on_message 1 ⟨true, 5, ⟨2, [⟨1, "gm", "resp", 5⟩]⟩⟩ [(1, [(7, 2)])] 7 false
      "zzz" 100).1 = none ∧
      lastTS (on_message 1 ⟨true, 5, ⟨2, [⟨1, "gm", "resp", 5⟩]⟩⟩ [(1, [(7, 2)])]
        7 false "zzz" 100).2 1 7 = 2 := by
  have h := C7_no_match_no_effect 1 7 ⟨true, 5, ⟨2, [⟨1, "gm", "resp", 5⟩]⟩⟩
    [(1, [(7, 2)])] false "zzz" 100 (by decide)
  exact ⟨h.1, (h.2 1 7).trans (by norm_num [lastTS, lookup?])⟩

/-- C8: `remove_message` with an id no live record holds is a no-op (same
table, same count, every record kept); with the id of a live record — ids
are unique in a table — exactly that record is deleted: the count drops by
one, the record is gone, and every other record survives. -/
theorem C8_remove (t : MessagesTable) (i : Nat)
    (hnd : t.records.Pairwise (fun x y => x.id ≠ y.id)) :
    ((∀ m ∈ t.records, m.id ≠ i) → remove_message t i = t) ∧
      (∀ m0 ∈ t.records, m0.id = i →
        (remove_message t i).records.length + 1 = t.records.length ∧
        m0 ∉ (remove_message t i).records ∧
        (∀ m ∈ t.records, m ≠ m0 → m ∈ (remove_message t i).records)) := by
  constructor
  · intro hall
    have hfix : t.records.filter (fun m => m.id ≠ i) = t.records :=
      List.filter_eq_self.mpr (fun a ha => by simpa using hall a ha)
    cases t with
    | mk nid recs =>
      simp only [remove_message] at hfix ⊢
      rw [hfix]
  · intro m0 hm0 hid
    refine ⟨filter_length_of_mem_unique t.records i hnd m0 hm0 hid, ?_, ?_⟩
    · intro hmem
      have := (List.mem_filter.mp hmem).2
      simp [hid] at this
    · intro m hm hne
      apply List.mem_filter.mpr
      refine ⟨hm, ?_⟩
      have hidne : m.id ≠ i := by
        rw [← hid]
        exact List.Pairwise.forall (fun _ _ h => Ne.symm h) hnd hm hm0 hne
      simpa using hidne

/-- Witness for C8: removing the never-issued id 9999 changes nothing;
removing id 2 deletes exactly that record. -/
theorem C8_witness :
    remove_message ⟨3, [⟨1, "a", "r", 5⟩, ⟨2, "b", "s", 6⟩]⟩ 9999 =
      ⟨3, [⟨1, "a", "r", 5⟩, ⟨2, "b", "s", 6⟩]⟩ ∧
      (remove_message ⟨3, [⟨1, "a", "r", 5⟩, ⟨2, "b", "s", 6⟩]⟩ 2).records.length + 1 = 2 ∧
      ⟨2, "b", "s", 6⟩ ∉ (remove_message ⟨3, [⟨1, "a", "r", 5⟩, ⟨2, "b", "s", 6⟩]⟩ 2).records := by
  have h1 := C8_remove ⟨3, [⟨1, "a", "r", 5⟩, ⟨2, "b", "s", 6⟩]⟩ 9999 (by decide)
  have h2 := C8_remove ⟨3, [⟨1, "a", "r", 5⟩, ⟨2, "b", "s", 6⟩]⟩ 2 (by decide)
  have h3 := h2.2 ⟨2, "b", "s", 6⟩ (by decide) rfl
  exact ⟨h1.1 (by decide), h3.1, h3.2.1⟩

/-- C9 counterexample: with the `messages` read failing (`StoreUnavailable`)
in an enabled, eligible handler run, `on_messageE` does not degrade to a
successful no-output result — it propagates the store failure out of the
handler (there is no try/except in `Example.on_message`). -/
theorem C9_counterexample :
    on_messageE 1 ⟨Except.ok true, Except.ok 5, Except.error StoreErr.unavailable⟩
        [] 7 false "gm" 100 = Except.error StoreErr.unavailable ∧
      (on_messageE 1 ⟨Except.ok true, Except.ok 5, Except.error StoreErr.unavailable⟩
        [] 7 false "gm" 100).toOption = none := by
  have h := on_messageE_messages_fail 1 7
    ⟨Except.ok true, Except.ok 5, Except.error StoreErr.unavailable⟩ [] "gm" 100 5
    rfl rfl rfl (by norm_num [lastTS, lookup?])
  refine ⟨h, ?_⟩
  rw [h]
  rfl

/-- C9 as amended: a store failure during message handling makes the handler
fail as a whole — no response is emitted, but the failure propagates out of
`on_message` instead of being swallowed there; only the hosting event
dispatcher (outside this repository) can contain it. -/
theorem C9_amended (gid aid : Nat) (st : FallibleStore) (cds : Cooldowns)
    (content : String) (now : ℚ) (c : Nat)
    (hen : st.enabled = Except.ok true) (hcd : st.cooldown = Except.ok c)
    (hmsg : st.messages = Except.error StoreErr.unavailable)
    (helig : lastTS cds gid aid + (c : ℚ) ≤ now) :
    on_messageE gid st cds aid false content now =
        Except.error StoreErr.unavailable ∧
      ∀ out, on_messageE gid st cds aid false content now ≠ Except.ok out := by
  have h := on_messageE_messages_fail gid aid st cds content now c hen hcd hmsg helig
  refine ⟨h, fun out hcon => ?_⟩
  rw [h] at hcon
  cases hcon

/-- Witness for C9 (amended) at a concrete failing store. -/
theorem C9_witness :
    on_messageE 2 ⟨Except.ok true, Except.ok 3, Except.error StoreErr.unavailable⟩
      [] 8 false "hey" 50 = Except.error StoreErr.unavailable :=
  (C9_amended 2 8 ⟨Except.ok true, Except.ok 3, Except.error StoreErr.unavailable⟩
    [] "hey" 50 3 rfl rfl rfl (by norm_num [lastTS, lookup?])).1

/-- C10 counterexample: with records `[(id 1, "a", "RA"), (id 2, "", "RE")]`,
the message "abc" is answered with "RA" — the earlier matching record — not
with the empty-trigger record's own response "RE". -/
theorem C10_counterexample :
    trig_add ⟨2, [⟨1, "a", "RA", 5⟩]⟩ "" "RE" 6 =
      Except.ok ⟨3, [⟨1, "a", "RA", 5⟩, ⟨2, "", "RE", 6⟩]⟩ ∧
      (on_message 1 ⟨true, 5, ⟨3, [⟨1, "a", "RA", 5⟩, ⟨2, "", "RE", 6⟩]⟩⟩ [] 7 false
        "abc" 100).1 = some "RA" ∧
      (on_message 1 ⟨true, 5, ⟨3, [⟨1, "a", "RA", 5⟩, ⟨2, "", "RE", 6⟩]⟩⟩ [] 7 false
        "abc" 100).1 ≠ some "RE" := by
  have hm : (on_message 1 ⟨true, 5, ⟨3, [⟨1, "a", "RA", 5⟩, ⟨2, "", "RE", 6⟩]⟩⟩ [] 7
      false "abc" 100).1 = some "RA" := by
    rw [on_message_found 1 ⟨true, 5, ⟨3, [⟨1, "a", "RA", 5⟩, ⟨2, "", "RE", 6⟩]⟩⟩ []
      7 "abc" 100 ⟨1, "a", "RA", 5⟩ rfl (by norm_num [lastTS, lookup?]) rfl]
  refine ⟨rfl, hm, ?_⟩
  rw [hm]
  simp

/-- C10 as amended: `trig_add` accepts an empty trigger (when the table has
no empty trigger yet and is below the cap), and once an empty-trigger record
is live, an enabled guild answers every message from an eligible author with
some response — the first matching record's in scan order, not necessarily
the empty-trigger record's own. -/
theorem C10_amended (gid aid : Nat) (g : GuildState) (cds : Cooldowns)
    (content : String) (now : ℚ)
    (hen : g.enabled = true)
    (helig : lastTS cds gid aid + (g.cooldown : ℚ) ≤ now)
    (hempty : ∃ m ∈ get_messages g.messages, m.trigger = "") :
    (∃ r, (on_message gid g cds aid false content now).1 = some r) ∧
      (∀ t r a, (∀ m ∈ get_messages t, m.trigger ≠ "") →
        (get_messages t).length < 20 →
        trig_add t "" r a = Except.ok (add_message t "" r a)) := by
  constructor
  · obtain ⟨m0, hm0, htrig⟩ := hempty
    have hsome : ((get_messages g.messages).find?
        (fun m => strContains content m.trigger)).isSome = true :=
      List.find?_isSome.mpr ⟨m0, hm0, by rw [htrig]; exact strContains_empty content⟩
    obtain ⟨m, hm⟩ := Option.isSome_iff_exists.mp hsome
    exact ⟨m.response, by
      rw [on_message_found gid g cds aid content now m hen helig hm]⟩
  · intro t r a hnodup hlen
    unfold trig_add
    have hany : (get_messages t).any (fun m => m.trigger == pyLower "") = false := by
      rw [← Bool.not_eq_true, List.any_eq_true]
      rintro ⟨m, hm, hbeq⟩
      exact hnodup m hm (by simpa using hbeq)
    rw [hany]
    simp only [Bool.false_eq_true, if_false]
    rw [if_neg (by omega)]
    rfl

/-- Witness for C10 (amended): content matching no non-empty trigger is still
answered once an empty-trigger record exists. -/
theorem C10_witness :
    ∃ r, (on_message 1 ⟨true, 5, ⟨3, [⟨1, "xyz", "RX", 5⟩, ⟨2, "", "RE", 6⟩]⟩⟩ []
      7 false "no match here" 100).1 = some r :=
  (C10_amended 1 7 ⟨true, 5, ⟨3, [⟨1, "xyz", "RX", 5⟩, ⟨2, "", "RE", 6⟩]⟩⟩ []
    "no match here" 100 rfl (by norm_num [lastTS, lookup?])
    ⟨⟨2, "", "RE", 6⟩, by decide, rfl⟩).1

end Nerosys
